import Mathlib

/-!
Verification of the Task Execution Bridge of the `adk-rag-agent` repository
(`src/app/infrastructure/web/rag_agent_executor.py`).

The file shallowly embeds the executor: the A2A part model, the GenAI part
model, the bidirectional part converters, the session upsert accessor, the
event-driving loop of `_process_request`, and the `execute`/`cancel` entry
points.  Python exceptions are modelled with `Except Err`; calls issued to
the Task Updater are recorded in an explicit trace (`List UpdCall`).
Python truthiness of optional strings and optional lists is modelled
explicitly (`strTruthy`, empty lists).
-/

/-- Python exceptions raised by the executor.  `valueError` models
`ValueError` (malformed request and part-conversion failures, the spec's
`MalformedRequest` / `UnsupportedPartType` / `UnresolvedFileReference` /
`MissingInlineData`), `runtimeError` models `RuntimeError` (the spec's
`SessionResolutionFailed`), `serverError` models `ServerError` (the spec's
`UnsupportedOperation`). -/
inductive Err where
  | valueError (msg : String)
  | runtimeError (msg : String)
  | serverError (msg : String)
deriving DecidableEq, Repr

/-- The file payload of an A2A `FilePart`: `FileWithUri(uri, mimeType)` or
`FileWithBytes(bytes, mimeType)`.  The bytes of `FileWithBytes` are a
string in A2A (`root.file.bytes: str`); the executor round-trips them
through UTF-8 encode/decode, which the embedding models as the identity. -/
inductive FileUnion where
  | fileWithUri (uri : String) (mimeType : Option String)
  | fileWithBytes (bytes : String) (mimeType : Option String)
deriving DecidableEq, Repr

/-- The root union of an A2A part: `TextPart`, `FilePart`, or any other
member of the protocol union that the executor does not handle
(e.g. `DataPart`), modelled by `dataPart`. -/
inductive PartRoot where
  | textPart (text : String)
  | filePart (file : FileUnion)
  | dataPart
deriving DecidableEq, Repr

/-- An A2A part (`a2a.types.Part`) wraps its root union (`part.root`). -/
structure A2aPart where
  root : PartRoot
deriving DecidableEq, Repr

/-- GenAI `types.FileData`: a file referenced by URI. -/
structure FileData where
  file_uri : Option String := none
  mime_type : Option String := none
deriving DecidableEq, Repr

/-- GenAI `types.Blob`: inline bytes.  The bytes are modelled as the
string they UTF-8-decode to. -/
structure Blob where
  data : Option String := none
  mime_type : Option String := none
deriving DecidableEq, Repr

/-- GenAI `types.Part` (named `GenaiPart` here): at most one of `text`, `file_data`, `inline_data`
is populated by the converters. -/
structure GenaiPart where
  text : Option String := none
  file_data : Option FileData := none
  inline_data : Option Blob := none
deriving DecidableEq, Repr

/-- GenAI `types.Content`: a role plus an optional list of parts. -/
structure Content where
  role : Option String := none
  parts : Option (List GenaiPart) := none
deriving DecidableEq, Repr

/-- Python truthiness of an optional string: `None` and `""` are falsy. -/
def strTruthy : Option String → Bool
  | none => false
  | some s => !s.isEmpty

/-- Python `s or dflt` on an optional string: the default is used when the
string is `None` or empty. -/
def pyOr (s : Option String) (dflt : String) : String :=
  match s with
  | none => dflt
  | some v => if v.isEmpty then dflt else v

/-- A list comprehension whose element expression may raise: the first
raised exception aborts the whole comprehension and no partial list is
produced. -/
def mapExcept (f : α → Except Err β) : List α → Except Err (List β)
  | [] => .ok []
  | a :: as =>
    match f a with
    | .error e => .error e
    | .ok b =>
      match mapExcept f as with
      | .error e => .error e
      | .ok bs => .ok (b :: bs)

/-- `RAGAgentExecutor._convert_a2a_part_to_genai`: converts a single A2A
part to a GenAI part.  Text copies the string; `FileWithUri` becomes
`file_data`; `FileWithBytes` becomes `inline_data` with the mime type
defaulted to `application/octet-stream` when falsy; any other root raises
`ValueError("Unsupported part type: ...")`. -/
def convert_a2a_part_to_genai (part : A2aPart) : Except Err GenaiPart :=
  match part.root with
  | .textPart t => .ok { text := some t }
  | .filePart f =>
    match f with
    | .fileWithUri uri mt =>
      .ok { file_data := some { file_uri := some uri, mime_type := mt } }
    | .fileWithBytes b mt =>
      .ok { inline_data :=
              some { data := some b
                     mime_type := some (pyOr mt "application/octet-stream") } }
  | .dataPart => .error (.valueError "Unsupported part type: Part")

/-- `RAGAgentExecutor._convert_a2a_parts_to_genai`: list comprehension over
`_convert_a2a_part_to_genai`. -/
def convert_a2a_parts_to_genai (parts : List A2aPart) : Except Err (List GenaiPart) :=
  mapExcept convert_a2a_part_to_genai parts

/-- `RAGAgentExecutor._convert_genai_part_to_a2a`: converts a single GenAI
part to an A2A part.  Truthy text wins; then `file_data` (raising
`ValueError("File URI is missing")` on a falsy URI); then `inline_data`
(raising `ValueError("Inline data is missing")` on falsy data); otherwise
`ValueError("Unsupported part type: ...")`. -/
def convert_genai_part_to_a2a (part : GenaiPart) : Except Err A2aPart :=
  if strTruthy part.text then
    .ok { root := .textPart (part.text.getD "") }
  else
    match part.file_data with
    | some fd =>
      if strTruthy fd.file_uri then
        .ok { root := .filePart (.fileWithUri (fd.file_uri.getD "") fd.mime_type) }
      else
        .error (.valueError "File URI is missing")
    | none =>
      match part.inline_data with
      | some blob =>
        if strTruthy blob.data then
          .ok { root := .filePart (.fileWithBytes (blob.data.getD "") blob.mime_type) }
        else
          .error (.valueError "Inline data is missing")
      | none => .error (.valueError "Unsupported part type: Part")

/-- Python truthiness of the filter `(part.text or part.file_data or
part.inline_data)` used by `_convert_genai_parts_to_a2a`: a present
`FileData` or `Blob` object is truthy regardless of its fields. -/
def genaiPartTruthy (p : GenaiPart) : Bool :=
  strTruthy p.text || p.file_data.isSome || p.inline_data.isSome

/-- `RAGAgentExecutor._convert_genai_parts_to_a2a`: filters out parts whose
three content fields are all falsy, then converts each remaining part. -/
def convert_genai_parts_to_a2a (parts : List GenaiPart) : Except Err (List A2aPart) :=
  mapExcept convert_genai_part_to_a2a (parts.filter genaiPartTruthy)

/-- An ADK runtime event, as read by the driver: its terminal
classification (`event.is_final_response()`), its optional content, and
the function calls it carries (`event.get_function_calls()`, modelled by
the list of called tool names). -/
structure Event where
  is_final : Bool
  content : Option Content := none
  function_calls : List String := []
deriving DecidableEq, Repr

/-- The expression `event.content.parts if event.content and
event.content.parts else []`: the parts of an event, with absent content,
absent parts and the (falsy) empty parts list all collapsing to `[]`. -/
def eventContentParts (e : Event) : List GenaiPart :=
  match e.content with
  | some c =>
    match c.parts with
    | some ps => ps
    | none => []
  | none => []

/-- The A2A task lifecycle states used by the executor. -/
inductive TaskState where
  | submitted
  | working
  | completed
  | failed
  | canceled
deriving DecidableEq, Repr

/-- One call issued to the `TaskUpdater` collaborator.  `updateStatus`
records the state and the parts of the attached agent message
(`task_updater.new_agent_message(parts)`). -/
inductive UpdCall where
  | submit
  | startWork
  | updateStatus (state : TaskState) (parts : List A2aPart)
  | addArtifact (parts : List A2aPart)
  | complete
  | fail (reason : String)
deriving DecidableEq, Repr

/-- The event-driving loop of `RAGAgentExecutor._process_request`
(lines 70-98): for each event in stream order, a final event converts its
parts, adds them as the artifact, completes the task and breaks out of the
loop; an event without function calls pushes one `Working` status update
carrying its converted parts; a function-call event issues no Task Updater
call.  The result is the trace of Task Updater calls paired with either
normal termination or the first raised exception (calls already issued
before the exception remain in the trace). -/
def processEvents : List Event → List UpdCall × Except Err Unit
  | [] => ([], .ok ())
  | e :: rest =>
    if e.is_final then
      match convert_genai_parts_to_a2a (eventContentParts e) with
      | .error err => ([], .error err)
      | .ok parts => ([.addArtifact parts, .complete], .ok ())
    else if e.function_calls.isEmpty then
      match convert_genai_parts_to_a2a (eventContentParts e) with
      | .error err => ([], .error err)
      | .ok parts =>
        let r := processEvents rest
        (.updateStatus .working parts :: r.1, r.2)
    else
      processEvents rest

/-- An ADK `Session` as far as the executor reads it: the executor uses
`session.id` after resolution. -/
structure Session where
  id : String
  app_name : String := ""
  user_id : String := ""
deriving DecidableEq, Repr

/-- The session store boundary (`runner.session_service`): `get_session`
reads by (app_name, user_id, session_id) key; `create_session` may update
the store state and returns the created session, or `none` on store
malfunction.  The store state is an explicit parameter `σ`. -/
structure SessionStoreModel (σ : Type) where
  get_session : σ → String → String → String → Option Session
  create_session : σ → String → String → String → σ × Option Session

/-- The ADK `Runner` as far as the executor reads it: its `app_name`, its
`session_service`, and `run_async(session_id, user_id, new_message)`
producing the runtime event stream. -/
structure RunnerModel (σ : Type) where
  app_name : String
  session_service : SessionStoreModel σ
  run_async : String → String → Content → List Event

/-- `RAGAgentExecutor._run_agent`: delegates to
`runner.run_async(session_id=..., user_id="rag_agent_user",
new_message=...)`. -/
def run_agent {σ : Type} (R : RunnerModel σ) (session_id : String)
    (new_message : Content) : List Event :=
  R.run_async session_id "rag_agent_user" new_message

/-- `RAGAgentExecutor._upsert_session`: reads the session by
(app_name, "rag_agent_user", session_id); on a miss creates it under the
same key; if the store still reports no session, raises
`RuntimeError("Failed to get or create session: ...")`. -/
def upsert_session {σ : Type} (R : RunnerModel σ) (st : σ)
    (session_id : String) : σ × Except Err Session :=
  match R.session_service.get_session st R.app_name "rag_agent_user" session_id with
  | some session => (st, .ok session)
  | none =>
    match R.session_service.create_session st R.app_name "rag_agent_user" session_id with
    | (st2, some session) => (st2, .ok session)
    | (st2, none) =>
      (st2, .error (.runtimeError ("Failed to get or create session: " ++ session_id)))

/-- `RAGAgentExecutor._process_request`: resolves the session (rebinding
`session_id` to `session_obj.id`), runs the agent, and drives the event
loop; a session-resolution exception aborts before any event is read. -/
def process_request {σ : Type} (R : RunnerModel σ) (st : σ)
    (new_message : Content) (session_id : String) :
    σ × (List UpdCall × Except Err Unit) :=
  match upsert_session R st session_id with
  | (st2, .error e) => (st2, ([], .error e))
  | (st2, .ok session_obj) =>
    (st2, processEvents (run_agent R session_obj.id new_message))

/-- The inbound `RequestContext` as far as the executor reads it.
`call_context_user` models the caller-supplied identity carried in the
request's call context; the executor never reads it. -/
structure RequestContext where
  task_id : Option String := none
  context_id : Option String := none
  message : Option (List A2aPart) := none
  current_task : Option Unit := none
  call_context_user : Option String := none

/-- `RAGAgentExecutor.execute` (lines 100-134): validates that the context
carries truthy `task_id` and `context_id` and a message (raising
`ValueError` otherwise, before any Task Updater call), submits the task
when there is no current task, starts work, converts the inbound message
parts, and hands the resulting user content to `_process_request` with
`context.context_id` as the session id.  The result is the final store
state, the trace of Task Updater calls, and either normal termination or
the first raised exception. -/
def execute {σ : Type} (R : RunnerModel σ) (st : σ)
    (context : RequestContext) : σ × (List UpdCall × Except Err Unit) :=
  if !strTruthy context.task_id || !strTruthy context.context_id then
    (st, ([], .error (.valueError "RequestContext must have task_id and context_id")))
  else
    match context.message with
    | none => (st, ([], .error (.valueError "RequestContext must have a message")))
    | some message_parts =>
      let tr0 : List UpdCall := if context.current_task.isNone then [.submit] else []
      let tr1 : List UpdCall := tr0 ++ [.startWork]
      match convert_a2a_parts_to_genai message_parts with
      | .error e => (st, (tr1, .error e))
      | .ok gparts =>
        let r := process_request R st { role := some "user", parts := some gparts }
                   (context.context_id.getD "")
        (r.1, (tr1 ++ r.2.1, r.2.2))

/-- `RAGAgentExecutor.cancel`: unconditionally raises
`ServerError(error=UnsupportedOperationError())`. -/
def cancel (_context : RequestContext) : Except Err Unit :=
  .error (.serverError "UnsupportedOperationError")

/-- Round trip of one A2A part through the converter pair:
`_convert_genai_part_to_a2a(_convert_a2a_part_to_genai(p))`. -/
def roundtripPart (p : A2aPart) : Except Err A2aPart :=
  match convert_a2a_part_to_genai p with
  | .error e => .error e
  | .ok g => convert_genai_part_to_a2a g

/-- The parts on which the converter pair actually round-trips: non-empty
text, a file reference with a non-empty URI, or inline bytes that are
non-empty and carry a non-empty mime type. -/
def roundtrippable : A2aPart → Prop
  | { root := .textPart t } => t ≠ ""
  | { root := .filePart (.fileWithUri uri _) } => uri ≠ ""
  | { root := .filePart (.fileWithBytes b mt) } =>
      b ≠ "" ∧ ∃ m, mt = some m ∧ m ≠ ""
  | { root := .dataPart } => False

/-- A GenAI part carrying no content at all, in the words of the spec:
empty text, empty file-data and empty inline-data. -/
def gpartNoContent (p : GenaiPart) : Bool :=
  (p.text.getD "").isEmpty && p.file_data.isNone && p.inline_data.isNone

/-- The `Working` status update the driver issues for one interim event:
the event's parts converted, wrapped in an `updateStatus` call. -/
def workingUpdate (e : Event) : Except Err UpdCall :=
  match convert_genai_parts_to_a2a (eventContentParts e) with
  | .error err => .error err
  | .ok ps => .ok (.updateStatus .working ps)

/-- The Task Updater calls `execute` issues before driving events: `submit`
when the context has no current task, then `startWork`. -/
def startTrace (context : RequestContext) : List UpdCall :=
  (if context.current_task.isNone then [UpdCall.submit] else []) ++ [UpdCall.startWork]

/-- `true` on every Task Updater call other than `fail`. -/
def isNotFail : UpdCall → Bool
  | .fail _ => false
  | _ => true

/-- A session store key: (app_name, user_id, session_id). -/
abbrev SessionKey := String × String × String

/-- The state of the in-memory session store: an association list from
keys to sessions. -/
abbrev InMemoryStore := List (SessionKey × Session)

/-- Modelled from the spec: the external session store the process is
configured with (`InMemorySessionService` in `src/app/main/a2a_main.py`,
whose implementation lives outside `src/`) — `getSession` reads by
(app, user, id) key and `createSession` inserts a fresh session under the
key and returns it. -/
def inMemorySessionService : SessionStoreModel InMemoryStore where
  get_session st app user sid :=
    (st.find? (fun kv => kv.1 == (app, user, sid))).map Prod.snd
  create_session st app user sid :=
    let s : Session := { id := sid, app_name := app, user_id := user }
    (((app, user, sid), s) :: st, some s)

/-- A store stand-in whose create malfunctions (reports the session still
absent), exercising the `SessionResolutionFailed` branch. -/
def failingSessionService : SessionStoreModel Unit where
  get_session _ _ _ _ := none
  create_session st _ _ _ := (st, none)

/-- A concrete runner over the in-memory store whose agent produces no
events. -/
def runnerC : RunnerModel InMemoryStore where
  app_name := "Test"
  session_service := inMemorySessionService
  run_async := fun _ _ _ => []

/-- A concrete runner over the failing store. -/
def runnerFail : RunnerModel Unit where
  app_name := "Test"
  session_service := failingSessionService
  run_async := fun _ _ _ => []

/-- A well-formed request context: both identities, a one-part text
message, no current task. -/
def ctxOk : RequestContext :=
  { task_id := some "t1"
    context_id := some "c1"
    message := some [{ root := .textPart "status?" }]
    current_task := none }

/-- A request context whose message carries a part of an unhandled variant
(`DataPart`). -/
def ctxBad : RequestContext :=
  { task_id := some "t1"
    context_id := some "c1"
    message := some [{ root := .dataPart }]
    current_task := none }

/-- A request context missing its context identity. -/
def ctxNoCtx : RequestContext :=
  { task_id := some "t1"
    context_id := none
    message := some [{ root := .textPart "x" }]
    current_task := none }

/-- The session the in-memory store creates for app `Test`, user
`rag_agent_user`, session id `s1`. -/
def sess1 : Session :=
  { id := "s1", app_name := "Test", user_id := "rag_agent_user" }

/-- The in-memory store state holding exactly `sess1`. -/
def store1 : InMemoryStore := [(("Test", "rag_agent_user", "s1"), sess1)]

/-- `true` when the conversion of a list succeeded. -/
def exceptIsOk : Except Err α → Bool
  | .ok _ => true
  | .error _ => false

/-- An interim thinking event carrying one text part. -/
def evWorking : Event :=
  { is_final := false
    content := some { role := some "model", parts := some [{ text := some "checking..." }] } }

/-- A function-call event (internal tool progress, no caller-visible
content). -/
def evFn : Event :=
  { is_final := false, function_calls := ["check_shipment_status"] }

/-- The final response event carrying one text part. -/
def evFinal : Event :=
  { is_final := true
    content := some { role := some "model", parts := some [{ text := some "ABC123 is in transit" }] } }

/-- An event placed after the final one; the driver must never read it. -/
def evExtra : Event :=
  { is_final := true
    content := some { role := some "model", parts := some [{ text := some "ignored" }] } }

theorem strTruthy_getD (o : Option String) : strTruthy o = !(o.getD "").isEmpty := by
  cases o with
  | none => decide
  | some s => rfl

theorem genaiPartTruthy_eq_not_noContent (p : GenaiPart) :
    genaiPartTruthy p = !(gpartNoContent p) := by
  obtain ⟨t, fd, il⟩ := p
  cases t with
  | none =>
    cases fd with
    | none =>
      cases il with
      | none => decide
      | some b => simp [genaiPartTruthy, gpartNoContent, strTruthy]
    | some f => cases il <;> simp [genaiPartTruthy, gpartNoContent, strTruthy]
  | some s => cases fd <;> cases il <;> simp [genaiPartTruthy, gpartNoContent, strTruthy]

theorem filter_truthy_eq (parts : List GenaiPart) :
    parts.filter genaiPartTruthy = parts.filter (fun p => !(gpartNoContent p)) := by
  induction parts with
  | nil => rfl
  | cons p ps ih =>
    simp only [List.filter_cons, genaiPartTruthy_eq_not_noContent, ih]

theorem mapExcept_mem_error {f : α → Except Err β} {l : List α} {a : α} {e : Err}
    (ha : a ∈ l) (hfa : f a = .error e) : exceptIsOk (mapExcept f l) = false := by
  induction l with
  | nil => cases ha
  | cons b bs ih =>
    rcases List.mem_cons.mp ha with h | h
    · subst h
      simp [mapExcept, hfa, exceptIsOk]
    · cases hfb : f b with
      | error e2 => simp [mapExcept, hfb, exceptIsOk]
      | ok v =>
        have := ih h
        cases hrest : mapExcept f bs with
        | error e2 => simp [mapExcept, hfb, hrest, exceptIsOk]
        | ok bs2 => rw [hrest] at this; simp [exceptIsOk] at this

/-- C8: for every request context, the cancel operation fails with
`UnsupportedOperation` (a `ServerError` wrapping
`UnsupportedOperationError`); it never succeeds and never acts as a
no-op. -/
theorem c8_cancel_unsupported (context : RequestContext) :
    cancel context = .error (.serverError "UnsupportedOperationError") ∧
    ∀ u : Unit, cancel context ≠ .ok u := by
  refine ⟨rfl, ?_⟩
  intro u h
  simp [cancel] at h

/-- C8 witness: cancel evaluated on a concrete request context. -/
theorem c8_cancel_unsupported_witness :
    cancel ctxOk = .error (.serverError "UnsupportedOperationError") ∧
    cancel ctxOk ≠ .ok () :=
  ⟨(c8_cancel_unsupported ctxOk).1, (c8_cancel_unsupported ctxOk).2 ()⟩

/-- C2 counterexample: the claim fails as stated — the round trip of the
valid Text part with empty text does not reconstruct the part; it raises
`ValueError("Unsupported part type: ...")`, because the runtime-to-protocol
converter treats empty text as falsy. -/
theorem c2_counterexample :
    roundtripPart { root := .textPart "" } =
      .error (.valueError "Unsupported part type: Part") ∧
    roundtripPart { root := .textPart "" } ≠ .ok { root := .textPart "" } := by
  refine ⟨rfl, ?_⟩
  intro h
  rw [show roundtripPart { root := .textPart "" } =
        .error (.valueError "Unsupported part type: Part") from rfl] at h
  exact Except.noConfusion h

/-- C2 (amended): for every Part with non-empty text, or a file reference
with non-empty URI, or inline bytes that are non-empty and carry a
non-empty mime type, converting to the runtime representation and back
yields the same part. -/
theorem c2_roundtrip (p : A2aPart) (h : roundtrippable p) :
    roundtripPart p = .ok p := by
  obtain ⟨root⟩ := p
  cases root with
  | textPart t =>
    have h2 : t ≠ "" := h
    have ht : t.isEmpty = false := by
      cases he : t.isEmpty
      · rfl
      · exact absurd ((String.isEmpty_iff _).mp he) h2
    simp [roundtripPart, convert_a2a_part_to_genai, convert_genai_part_to_a2a,
      strTruthy, ht]
  | filePart f =>
    cases f with
    | fileWithUri uri mt =>
      have h2 : uri ≠ "" := h
      have hu : uri.isEmpty = false := by
        cases he : uri.isEmpty
        · rfl
        · exact absurd ((String.isEmpty_iff _).mp he) h2
      simp [roundtripPart, convert_a2a_part_to_genai, convert_genai_part_to_a2a,
        strTruthy, hu]
    | fileWithBytes b mt =>
      obtain ⟨hb, m, hmt, hm⟩ := h
      subst hmt
      have hb2 : b.isEmpty = false := by
        cases he : b.isEmpty
        · rfl
        · exact absurd ((String.isEmpty_iff _).mp he) hb
      have hm2 : m.isEmpty = false := by
        cases he : m.isEmpty
        · rfl
        · exact absurd ((String.isEmpty_iff _).mp he) hm
      simp [roundtripPart, convert_a2a_part_to_genai, convert_genai_part_to_a2a,
        strTruthy, pyOr, hb2, hm2]
  | dataPart => exact h.elim

/-- C2 witness: the amended round-trip law evaluated on a concrete text
part, file reference, and inline file. -/
theorem c2_roundtrip_witness :
    roundtripPart { root := .textPart "hi" } = .ok { root := .textPart "hi" } ∧
    roundtripPart { root := .filePart (.fileWithUri "gs://b/f" none) } =
      .ok { root := .filePart (.fileWithUri "gs://b/f" none) } ∧
    roundtripPart { root := .filePart (.fileWithBytes "data" (some "text/plain")) } =
      .ok { root := .filePart (.fileWithBytes "data" (some "text/plain")) } :=
  ⟨c2_roundtrip _ (by simp [roundtrippable]),
   c2_roundtrip _ (by simp [roundtrippable]),
   c2_roundtrip _ (by simp [roundtrippable])⟩

/-- C7: the list-level runtime-to-protocol conversion omits exactly the
entries carrying no content at all (empty text, empty file-data, empty
inline-data): dropping such an entry anywhere leaves the conversion
unchanged, and the conversion equals the element conversion mapped over
the order-preserving filter keeping exactly the contentful entries. -/
theorem c7_toProtocol_omits_empty :
    (∀ (xs ys : List GenaiPart) (p : GenaiPart), gpartNoContent p = true →
       convert_genai_parts_to_a2a (xs ++ p :: ys) =
         convert_genai_parts_to_a2a (xs ++ ys)) ∧
    (∀ parts : List GenaiPart,
       convert_genai_parts_to_a2a parts =
         mapExcept convert_genai_part_to_a2a
           (parts.filter (fun p => !(gpartNoContent p)))) := by
  constructor
  · intro xs ys p hp
    unfold convert_genai_parts_to_a2a
    rw [filter_truthy_eq, filter_truthy_eq]
    simp [List.filter_append, List.filter_cons, hp]
  · intro parts
    unfold convert_genai_parts_to_a2a
    rw [filter_truthy_eq]

/-- C7 witness: a contentless part in the middle of a list is omitted and
the order of the remainder is preserved. -/
theorem c7_toProtocol_omits_empty_witness :
    convert_genai_parts_to_a2a [{ text := some "a" }, {}, { text := some "b" }] =
      convert_genai_parts_to_a2a [{ text := some "a" }, { text := some "b" }] :=
  c7_toProtocol_omits_empty.1 [{ text := some "a" }] [{ text := some "b" }] {} rfl

/-- C5: for every inbound request lacking a truthy task identity, lacking
a truthy context identity, or lacking a message, `execute` fails with
`ValueError` (the spec's `MalformedRequest`) before any Task Updater call
occurs: the call trace is empty and the store state is unchanged. -/
theorem c5_malformed_fails_fast {σ : Type} (R : RunnerModel σ) (st : σ)
    (ctx : RequestContext)
    (h : strTruthy ctx.task_id = false ∨ strTruthy ctx.context_id = false ∨
         ctx.message = none) :
    execute R st ctx =
      (st, ([], .error (.valueError "RequestContext must have task_id and context_id"))) ∨
    execute R st ctx =
      (st, ([], .error (.valueError "RequestContext must have a message"))) := by
  rcases h with h | h | h
  · left
    simp [execute, h]
  · left
    simp [execute, h]
  · cases ht : strTruthy ctx.task_id with
    | false =>
      left
      simp [execute, ht]
    | true =>
      cases hc : strTruthy ctx.context_id with
      | false =>
        left
        simp [execute, hc]
      | true =>
        right
        simp [execute, ht, hc, h]

/-- C5 witness: a request missing its context identity is rejected with an
empty Task Updater trace. -/
theorem c5_malformed_fails_fast_witness :
    execute runnerC [] ctxNoCtx =
      ([], ([], .error (.valueError "RequestContext must have task_id and context_id"))) ∨
    execute runnerC [] ctxNoCtx =
      ([], ([], .error (.valueError "RequestContext must have a message"))) :=
  c5_malformed_fails_fast runnerC [] ctxNoCtx (Or.inr (Or.inl rfl))

/-- C6: any part variant outside the handled set fails explicitly on
either conversion direction (`UnsupportedPartType`, plus
`UnresolvedFileReference` for an empty file URI and `MissingInlineData`
for absent inline bytes on the runtime-to-protocol direction), and a
single failing part fails the conversion of the whole list — no partial
list is ever produced. -/
theorem c6_unsupported_explicit :
    (∀ p : A2aPart, p.root = .dataPart →
       convert_a2a_part_to_genai p = .error (.valueError "Unsupported part type: Part")) ∧
    (∀ p : GenaiPart, strTruthy p.text = false → p.file_data = none →
       p.inline_data = none →
       convert_genai_part_to_a2a p = .error (.valueError "Unsupported part type: Part")) ∧
    (∀ (p : GenaiPart) (fd : FileData), strTruthy p.text = false →
       p.file_data = some fd → strTruthy fd.file_uri = false →
       convert_genai_part_to_a2a p = .error (.valueError "File URI is missing")) ∧
    (∀ (p : GenaiPart) (blob : Blob), strTruthy p.text = false →
       p.file_data = none → p.inline_data = some blob → strTruthy blob.data = false →
       convert_genai_part_to_a2a p = .error (.valueError "Inline data is missing")) ∧
    (∀ (parts : List A2aPart) (p : A2aPart) (e : Err), p ∈ parts →
       convert_a2a_part_to_genai p = .error e →
       exceptIsOk (convert_a2a_parts_to_genai parts) = false) ∧
    (∀ (parts : List GenaiPart) (p : GenaiPart) (e : Err), p ∈ parts →
       genaiPartTruthy p = true → convert_genai_part_to_a2a p = .error e →
       exceptIsOk (convert_genai_parts_to_a2a parts) = false) := by
  refine ⟨?_, ?_, ?_, ?_, ?_, ?_⟩
  · intro p hp
    simp [convert_a2a_part_to_genai, hp]
  · intro p h1 h2 h3
    simp [convert_genai_part_to_a2a, h1, h2, h3]
  · intro p fd h1 h2 h3
    simp [convert_genai_part_to_a2a, h1, h2, h3]
  · intro p blob h1 h2 h3 h4
    simp [convert_genai_part_to_a2a, h1, h2, h3, h4]
  · intro parts p e hp hfa
    exact mapExcept_mem_error hp hfa
  · intro parts p e hp htr hfa
    have hmem : p ∈ parts.filter genaiPartTruthy := List.mem_filter.mpr ⟨hp, htr⟩
    exact mapExcept_mem_error hmem hfa

/-- C6 witness: each failure mode evaluated at a concrete part, and each
list conversion failing as a whole. -/
theorem c6_unsupported_explicit_witness :
    convert_a2a_part_to_genai { root := .dataPart } =
      .error (.valueError "Unsupported part type: Part") ∧
    convert_genai_part_to_a2a {} = .error (.valueError "Unsupported part type: Part") ∧
    convert_genai_part_to_a2a { file_data := some {} } =
      .error (.valueError "File URI is missing") ∧
    convert_genai_part_to_a2a { inline_data := some {} } =
      .error (.valueError "Inline data is missing") ∧
    exceptIsOk (convert_a2a_parts_to_genai
      [{ root := .textPart "a" }, { root := .dataPart }]) = false ∧
    exceptIsOk (convert_genai_parts_to_a2a
      [{ text := some "a" }, { file_data := some {} }]) = false :=
  ⟨c6_unsupported_explicit.1 _ rfl,
   c6_unsupported_explicit.2.1 {} rfl rfl rfl,
   c6_unsupported_explicit.2.2.1 _ {} rfl rfl rfl,
   c6_unsupported_explicit.2.2.2.1 _ {} rfl rfl rfl rfl,
   c6_unsupported_explicit.2.2.2.2.1 _ { root := .dataPart } _ (by decide) rfl,
   c6_unsupported_explicit.2.2.2.2.2 _ { file_data := some {} } _ (by decide) rfl rfl⟩

/-- C9: a final event carrying no content (absent content, absent parts
list, or an empty parts list) still completes the task normally: the
driver adds an artifact with an empty parts list and completes; it never
fails on an empty final response. -/
theorem c9_empty_final_completes (f : Event) (post : List Event)
    (hf : f.is_final = true)
    (h : f.content = none ∨
         (∃ c, f.content = some c ∧ (c.parts = none ∨ c.parts = some []))) :
    processEvents (f :: post) = ([.addArtifact [], .complete], .ok ()) := by
  have hp : eventContentParts f = [] := by
    rcases h with h | ⟨c, hc, h⟩
    · simp [eventContentParts, h]
    · rcases h with h | h <;> simp [eventContentParts, hc, h]
  simp [processEvents, hf, hp, convert_genai_parts_to_a2a, mapExcept]

/-- C9 witness: a final event with absent content completes with an empty
artifact even when further events follow. -/
theorem c9_empty_final_completes_witness :
    processEvents [{ is_final := true }, { is_final := false }] =
      ([.addArtifact [], .complete], .ok ()) :=
  c9_empty_final_completes { is_final := true } [{ is_final := false }] rfl (Or.inl rfl)

/-- C1: for an event stream made of non-final events followed by a final
event, the driver issues one `Working` status update per non-final event
without function calls, in stream order, carrying that event's converted
parts; issues nothing for function-call events; and on the final event
adds exactly one artifact with that event's converted parts and one
`complete` transition, reading no events after the final one (the result
does not depend on `post`). -/
theorem c1_driver_loop (pre : List Event) (f : Event) (post : List Event)
    (tr : List UpdCall) (fparts : List A2aPart)
    (hpre : ∀ e ∈ pre, e.is_final = false)
    (hf : f.is_final = true)
    (htr : mapExcept workingUpdate (pre.filter (fun e => e.function_calls.isEmpty)) = .ok tr)
    (hfp : convert_genai_parts_to_a2a (eventContentParts f) = .ok fparts) :
    processEvents (pre ++ f :: post) =
      (tr ++ [.addArtifact fparts, .complete], .ok ()) := by
  induction pre generalizing tr with
  | nil =>
    simp [mapExcept] at htr
    subst htr
    simp [processEvents, hf, hfp]
  | cons e es ih =>
    have he : e.is_final = false := hpre e (by simp)
    have hpre2 : ∀ x ∈ es, x.is_final = false := fun x hx => hpre x (by simp [hx])
    cases hfc : e.function_calls.isEmpty with
    | false =>
      rw [List.filter_cons_of_neg (by simp [hfc])] at htr
      simpa [processEvents, he, hfc] using ih tr hpre2 htr
    | true =>
      rw [List.filter_cons_of_pos (by simp [hfc])] at htr
      cases hwu : workingUpdate e with
      | error err => simp [mapExcept, hwu] at htr
      | ok u =>
        cases hrest : mapExcept workingUpdate (es.filter (fun e => e.function_calls.isEmpty)) with
        | error err => simp [mapExcept, hwu, hrest] at htr
        | ok us =>
          have htr2 : tr = u :: us := by
            simp [mapExcept, hwu, hrest] at htr
            exact htr.symm
          subst htr2
          cases hcv : convert_genai_parts_to_a2a (eventContentParts e) with
          | error err => simp [workingUpdate, hcv] at hwu
          | ok ps =>
            have hu : u = .updateStatus .working ps := by
              simp [workingUpdate, hcv] at hwu
              exact hwu.symm
            subst hu
            have ihr := ih us hpre2 hrest
            simp [processEvents, he, hfc, hcv, ihr]

/-- C1 witness: the spec's scenario stream — one interim text event, one
function-call event, the final response, and a trailing event that is
never read — yields exactly one `Working` update, the artifact with the
final text, and one `complete`. -/
theorem c1_driver_loop_witness :
    processEvents ([evWorking, evFn] ++ evFinal :: [evExtra]) =
      ([.updateStatus .working [{ root := .textPart "checking..." }],
        .addArtifact [{ root := .textPart "ABC123 is in transit" }], .complete],
       .ok ()) :=
  c1_driver_loop [evWorking, evFn] evFinal [evExtra]
    [.updateStatus .working [{ root := .textPart "checking..." }]]
    [{ root := .textPart "ABC123 is in transit" }]
    (by decide) rfl rfl rfl

/-- The driver loop never issues a `fail` call: its trace consists only of
status updates, artifacts and completions. -/
theorem processEvents_no_fail (evs : List Event) (r : String) :
    UpdCall.fail r ∉ (processEvents evs).1 := by
  induction evs with
  | nil => simp [processEvents]
  | cons e rest ih =>
    cases hf : e.is_final with
    | true =>
      cases hcv : convert_genai_parts_to_a2a (eventContentParts e) with
      | error err => simp [processEvents, hf, hcv]
      | ok ps => simp [processEvents, hf, hcv]
    | false =>
      cases hfc : e.function_calls.isEmpty with
      | false => simpa [processEvents, hf, hfc] using ih
      | true =>
        cases hcv : convert_genai_parts_to_a2a (eventContentParts e) with
        | error err => simp [processEvents, hf, hfc, hcv]
        | ok ps =>
          simp [processEvents, hf, hfc, hcv]
          exact ih

/-- `_process_request` never issues a `fail` call either. -/
theorem process_request_no_fail {σ : Type} (R : RunnerModel σ) (st : σ)
    (msg : Content) (sid : String) (r : String) :
    UpdCall.fail r ∉ (process_request R st msg sid).2.1 := by
  unfold process_request
  rcases h : upsert_session R st sid with ⟨st2, res⟩
  cases res with
  | error e => simp [h]
  | ok s => simpa [h] using processEvents_no_fail (run_agent R s.id msg) r

/-- C3 counterexample: the claim fails as stated — on a request whose
message carries an unhandled part variant, the conversion error aborts the
execution but no `fail()` call is ever issued to the Task Updater: the
trace ends at `submit, startWork` (all calls distinct from `fail`) and the
error propagates as a raised exception instead. -/
theorem c3_counterexample :
    (execute runnerC [] ctxBad).2 =
      ([UpdCall.submit, UpdCall.startWork],
        .error (.valueError "Unsupported part type: Part")) ∧
    ([UpdCall.submit, UpdCall.startWork]).all isNotFail = true :=
  ⟨rfl, rfl⟩

/-- C3 (amended): a part-conversion or session-resolution error aborts the
execution and propagates to the protocol layer as the raised error with
its detail preserved; the executor itself issues no `fail()` transition
(no execution trace ever contains one) and performs no retry. -/
theorem c3_error_propagation {σ : Type} (R : RunnerModel σ) (st : σ)
    (ctx : RequestContext) :
    (∀ r : String, UpdCall.fail r ∉ (execute R st ctx).2.1) ∧
    (∀ (mparts : List A2aPart) (e : Err), ctx.message = some mparts →
       strTruthy ctx.task_id = true → strTruthy ctx.context_id = true →
       convert_a2a_parts_to_genai mparts = .error e →
       (execute R st ctx).2 = (startTrace ctx, .error e)) ∧
    (∀ (mparts : List A2aPart) (gparts : List GenaiPart) (st2 : σ) (e : Err),
       ctx.message = some mparts →
       strTruthy ctx.task_id = true → strTruthy ctx.context_id = true →
       convert_a2a_parts_to_genai mparts = .ok gparts →
       upsert_session R st (ctx.context_id.getD "") = (st2, .error e) →
       (execute R st ctx).2 = (startTrace ctx, .error e)) := by
  refine ⟨?_, ?_, ?_⟩
  · intro r
    unfold execute
    cases hcond : (!strTruthy ctx.task_id || !strTruthy ctx.context_id) with
    | true => simp [hcond]
    | false =>
      cases hmsg : ctx.message with
      | none => simp [hcond, hmsg]
      | some mps =>
        cases hconv : convert_a2a_parts_to_genai mps with
        | error e => simp [hcond, hmsg, hconv]
        | ok gps =>
          simp [hcond, hmsg, hconv]
          exact process_request_no_fail R st _ _ r
  · intro mp e hmsg ht hc hconv
    simp [execute, ht, hc, hmsg, hconv, startTrace]
  · intro mp gps st2 e hmsg ht hc hconv hup
    simp [execute, process_request, ht, hc, hmsg, hconv, hup, startTrace]

/-- C3 amended-claim witness: the conversion-error case on a concrete bad
message, and the session-error case on a store whose create malfunctions;
in both the raised error is propagated unchanged after `submit,
startWork`. -/
theorem c3_error_propagation_witness :
    (execute runnerC [] ctxBad).2 =
      (startTrace ctxBad, .error (.valueError "Unsupported part type: Part")) ∧
    (execute runnerFail () ctxOk).2 =
      (startTrace ctxOk,
        .error (.runtimeError "Failed to get or create session: c1")) :=
  ⟨(c3_error_propagation runnerC [] ctxBad).2.1 [{ root := .dataPart }]
     (.valueError "Unsupported part type: Part") rfl rfl rfl rfl,
   (c3_error_propagation runnerFail () ctxOk).2.2 [{ root := .textPart "status?" }]
     [{ text := some "status?" }] ()
     (.runtimeError "Failed to get or create session: c1") rfl rfl rfl rfl rfl⟩

/-- For the in-memory store model, a successful create makes the created
session readable under its key. -/
theorem inMemory_get_after_create (st0 st2 : InMemoryStore) (s : Session)
    (app user sid : String)
    (h : inMemorySessionService.create_session st0 app user sid = (st2, some s)) :
    inMemorySessionService.get_session st2 app user sid = some s := by
  simp [inMemorySessionService] at h
  obtain ⟨h1, h2⟩ := h
  subst h1
  subst h2
  simp [inMemorySessionService, List.find?]

/-- C4: session resolution reads first (a held session is returned with no
create), creates under the same key on a miss (the produced session is
returned), fails with `SessionResolutionFailed` (a `RuntimeError`) when
the store still reports the session absent after the create, and — for any
store in which a created session is subsequently readable under its key —
a second resolution for the same key returns the very same session with
the store unchanged, never creating a duplicate. -/
theorem c4_session_resolution {σ : Type} (R : RunnerModel σ) (st : σ) (sid : String) :
    (∀ s, R.session_service.get_session st R.app_name "rag_agent_user" sid = some s →
       upsert_session R st sid = (st, .ok s)) ∧
    (∀ st2 s, R.session_service.get_session st R.app_name "rag_agent_user" sid = none →
       R.session_service.create_session st R.app_name "rag_agent_user" sid = (st2, some s) →
       upsert_session R st sid = (st2, .ok s)) ∧
    (∀ st2, R.session_service.get_session st R.app_name "rag_agent_user" sid = none →
       R.session_service.create_session st R.app_name "rag_agent_user" sid = (st2, none) →
       upsert_session R st sid =
         (st2, .error (.runtimeError ("Failed to get or create session: " ++ sid)))) ∧
    (∀ st1 s, upsert_session R st sid = (st1, .ok s) →
       (∀ (st0 st2 : σ) (s2 : Session),
          R.session_service.create_session st0 R.app_name "rag_agent_user" sid = (st2, some s2) →
          R.session_service.get_session st2 R.app_name "rag_agent_user" sid = some s2) →
       upsert_session R st1 sid = (st1, .ok s)) := by
  refine ⟨?_, ?_, ?_, ?_⟩
  · intro s hg
    simp [upsert_session, hg]
  · intro st2 s hg hc
    simp [upsert_session, hg, hc]
  · intro st2 hg hc
    simp [upsert_session, hg, hc]
  · intro st1 s h hlaw
    unfold upsert_session at h ⊢
    cases hg : R.session_service.get_session st R.app_name "rag_agent_user" sid with
    | some s0 =>
      rw [hg] at h
      simp at h
      obtain ⟨h1, h2⟩ := h
      subst h1
      subst h2
      simp [hg]
    | none =>
      rw [hg] at h
      rcases hc : R.session_service.create_session st R.app_name "rag_agent_user" sid with
        ⟨stc, oc⟩
      rw [hc] at h
      cases oc with
      | some s2 =>
        simp at h
        obtain ⟨h1, h2⟩ := h
        subst h1
        subst h2
        simp [hlaw st _ _ hc]
      | none => simp at h

/-- C4 witness: on the concrete in-memory store — a held session is
returned as-is; resolution from the empty store creates and returns the
session; the malfunctioning store yields the resolution failure; and a
second resolution after a create returns the same session with the store
unchanged. -/
theorem c4_session_resolution_witness :
    upsert_session runnerC store1 "s1" = (store1, .ok sess1) ∧
    upsert_session runnerC [] "s1" = (store1, .ok sess1) ∧
    upsert_session runnerFail () "s1" =
      ((), .error (.runtimeError "Failed to get or create session: s1")) ∧
    upsert_session runnerC store1 "s1" = (store1, .ok sess1) :=
  ⟨(c4_session_resolution runnerC store1 "s1").1 sess1 rfl,
   (c4_session_resolution runnerC [] "s1").2.1 store1 sess1 rfl rfl,
   (c4_session_resolution runnerFail () "s1").2.2.1 () rfl rfl,
   (c4_session_resolution runnerC [] "s1").2.2.2 store1 sess1
     ((c4_session_resolution runnerC [] "s1").2.1 store1 sess1 rfl rfl)
     (fun st0 st2 s2 h => inMemory_get_after_create st0 st2 s2 "Test" "rag_agent_user" "s1" h)⟩

/-- C10: every session-store access and every agent-runtime invocation
uses the hard-coded user identity `rag_agent_user`: `_run_agent` passes it
verbatim to `run_async`; session resolution depends only on the store's
behaviour at that user (two stores agreeing there resolve identically for
every app name and session id); and `execute` is independent of any
caller-supplied user identity in the request's call context. -/
theorem c10_hardcoded_user {σ : Type} (R : RunnerModel σ) :
    (∀ (sid : String) (msg : Content),
       run_agent R sid msg = R.run_async sid "rag_agent_user" msg) ∧
    (∀ R2 : RunnerModel σ, R2.app_name = R.app_name →
       (∀ (st : σ) (a i : String),
          R2.session_service.get_session st a "rag_agent_user" i =
            R.session_service.get_session st a "rag_agent_user" i) →
       (∀ (st : σ) (a i : String),
          R2.session_service.create_session st a "rag_agent_user" i =
            R.session_service.create_session st a "rag_agent_user" i) →
       ∀ (st : σ) (sid : String), upsert_session R2 st sid = upsert_session R st sid) ∧
    (∀ (st : σ) (ctx : RequestContext) (u1 u2 : Option String),
       execute R st { ctx with call_context_user := u1 } =
         execute R st { ctx with call_context_user := u2 }) := by
  refine ⟨fun _ _ => rfl, ?_, ?_⟩
  · intro R2 happ hget hcreate st sid
    unfold upsert_session
    simp only [happ, hget, hcreate]
  · intro st ctx u1 u2
    rfl

/-- C10 witness: resolution through a runner agreeing with `runnerC` at
user `rag_agent_user` coincides with `runnerC`'s, and `execute` gives the
same result for two different caller-supplied user identities. -/
theorem c10_hardcoded_user_witness :
    upsert_session runnerC [] "s1" = upsert_session runnerC [] "s1" ∧
    execute runnerC [] { ctxOk with call_context_user := some "alice" } =
      execute runnerC [] { ctxOk with call_context_user := some "bob" } :=
  ⟨(c10_hardcoded_user runnerC).2.1 runnerC rfl (fun _ _ _ => rfl) (fun _ _ _ => rfl) [] "s1",
   (c10_hardcoded_user runnerC).2.2 [] ctxOk (some "alice") (some "bob")⟩
